import Mathlib

/-!
Shallow embedding of the monitoring and status-lifecycle engine of the
placeholdarr repository (src/services/queue_monitor.py,
src/services/integrations.py, src/services/progressarr/queue.py,
src/core/config.py), together with theorems settling the frozen claims
about it.

Conventions of the embedding:
* Python dictionaries with a fixed key set become structures; a key read
  with .get(k) (which may be absent or None) becomes an Option field.
* The global registry MONITORED_MEDIA is a list of (key, entry) pairs in
  insertion order; Python dict keys are unique, which the list model
  reflects by inserting only when the key is absent.
* time.time() readings are passed in as an explicit rational parameter;
  Python float arithmetic on sizes is modelled with exact rationals.
* Network calls are abstracted by passing the decoded response in as an
  argument; a failed request (caught exception or non-200 status) is the
  none case of an Option argument.
* Log emissions that surface state transitions are modelled as an explicit
  event list, since the status-change and progress log lines are the only
  transition notifications this stage of the code emits (the Plex title
  update call in update_media_status is commented out in the source).
-/

namespace Placeholdarr

/-- Configuration fields of src/core/config.py used by the monitoring core
(defaults as in the source: MAX_MONITOR_TIME 60, CHECK_INTERVAL 10,
AVAILABLE_CLEANUP_DELAY 10, TITLE_UPDATES "ALL", INCLUDE_SPECIALS absent,
read through getattr with default False). -/
structure Settings where
  TITLE_UPDATES : String := "ALL"
  AVAILABLE_CLEANUP_DELAY : ℚ := 10
  CHECK_INTERVAL : ℚ := 10
  MAX_MONITOR_TIME : ℚ := 60
  INCLUDE_SPECIALS : Bool := false
deriving DecidableEq, Repr

/-- The media_type discriminator stored in every registry entry. -/
inductive MediaType where
  | movie
  | episode
deriving DecidableEq, Repr

/-- The media_data dictionary passed to add_to_monitor by the webhook
handlers.  Fields read by direct indexing in the source (media_type,
title, rating_key, season_number, episode_number) are plain fields;
fields read with .get are Options with the source defaults. -/
structure MediaData where
  media_type : MediaType
  title : String
  rating_key : Int
  is_4k : Bool := false
  hasFile : Bool := false
  tmdb_id : Option Int := none
  radarr_id : Option Int := none
  tvdb_id : Option Int := none
  season_number : Int := 0
  episode_number : Int := 0
  series_title : String := "Unknown Series"
  episode_id : Option Int := none
deriving DecidableEq, Repr

/-- Registry key: add_to_monitor builds the string
"movie_{radarr_id}" for movies and
"episode_{tvdb_id}_{season_number}_{episode_number}" for episodes; the
two string shapes are disjoint and injective in their components, which
this inductive captures. -/
inductive MediaKey where
  | movie (radarr_id : Option Int)
  | episode (tvdb_id : Option Int) (season_number episode_number : Int)
deriving DecidableEq, Repr

/-- One MONITORED_MEDIA registry entry, as built by add_to_monitor.
Type-specific keys (tmdb_id/radarr_id for movies, tvdb_id/season/episode/
series_title/episode_id for episodes) are Options read elsewhere with
.get; the progress key is created the first time a progress value is
written, hence also an Option. -/
structure MediaEntry where
  media_type : MediaType
  title : String
  rating_key : Int
  is_4k : Bool
  status : String
  start_time : ℚ
  last_update_time : ℚ
  last_status : String
  attempts : Int
  retrying : Bool
  tmdb_id : Option Int := none
  radarr_id : Option Int := none
  tvdb_id : Option Int := none
  season_number : Option Int := none
  episode_number : Option Int := none
  series_title : String := ""
  episode_id : Option Int := none
  progress : Option ℚ := none
deriving DecidableEq, Repr

/-- The registry dictionary MONITORED_MEDIA in insertion order. -/
abbrev Registry := List (MediaKey × MediaEntry)

/-- Mutable module state of queue_monitor.py: the registry, whether the
batch timer is running (BATCH_TIMER is not None and alive), and the
one-shot removal timers scheduled by update_media_status that have not
fired (each carries its delay and target key). -/
structure MonState where
  registry : Registry := []
  batchTimer : Bool := false
  pendingRemovals : List (ℚ × MediaKey) := []
deriving DecidableEq, Repr

/-- Transition notifications emitted by the monitoring code: the
status-change log line, the download-progress log line, and the Plex
title update issued on insertion. -/
inductive Event where
  | statusChange (key : MediaKey) (oldStatus newStatus : String)
  | progressLog (key : MediaKey) (progress : ℚ)
  | plexTitleUpdate (rating_key : Int) (title status : String)
deriving DecidableEq, Repr

/-- Dictionary lookup MONITORED_MEDIA.get(key) / key in MONITORED_MEDIA. -/
def lookupKey (k : MediaKey) : Registry → Option MediaEntry
  | [] => none
  | (k₁, e) :: rest => if k₁ = k then some e else lookupKey k rest

/-- Membership test, Python key in MONITORED_MEDIA. -/
def containsKey (k : MediaKey) (r : Registry) : Bool :=
  (lookupKey k r).isSome

/-- Python del MONITORED_MEDIA[key]: dict keys are unique, so deleting
removes the (single) binding of the key. -/
def eraseKey (k : MediaKey) : Registry → Registry
  | [] => []
  | (k₁, e) :: rest => if k₁ = k then rest else (k₁, e) :: eraseKey k rest

/-- In-place mutation MONITORED_MEDIA[key] = entry of an existing binding
(dict keys are unique, so the first binding is the binding). -/
def setKey (k : MediaKey) (e : MediaEntry) : Registry → Registry
  | [] => []
  | (k₁, e₁) :: rest => if k₁ = k then (k₁, e) :: rest else (k₁, e₁) :: setKey k e rest

/-- Registry key computed by add_to_monitor from the media_data fields. -/
def mediaKeyOf (d : MediaData) : MediaKey :=
  match d.media_type with
  | .movie => .movie d.radarr_id
  | .episode => .episode d.tvdb_id d.season_number d.episode_number

/-- The entry dictionary add_to_monitor stores: common fields plus the
media-type-specific fields. -/
def newEntry (now : ℚ) (d : MediaData) : MediaEntry :=
  let common : MediaEntry :=
    { media_type := d.media_type
      title := d.title
      rating_key := d.rating_key
      is_4k := d.is_4k
      status := "searching"
      start_time := now
      last_update_time := now
      last_status := ""
      attempts := 0
      retrying := false }
  match d.media_type with
  | .movie => { common with tmdb_id := d.tmdb_id, radarr_id := d.radarr_id }
  | .episode =>
      { common with
        tvdb_id := d.tvdb_id
        season_number := some d.season_number
        episode_number := some d.episode_number
        series_title := d.series_title
        episode_id := d.episode_id }

/-- Result of a call to add_to_monitor: the new module state, the Python
return value (the source function has no return statement carrying a
value, so every path returns None), and the emitted events. -/
structure AddOutcome where
  state : MonState
  ret : Option Bool
  events : List Event
deriving DecidableEq, Repr

/-- Embedding of add_to_monitor (src/services/queue_monitor.py lines
31-104): skip when title updates are OFF or the item already has a file;
otherwise insert under the computed key only if absent (updating the Plex
title in ALL mode), and (re)start the batch timer in ALL mode if it is
not running. -/
def add_to_monitor (s : Settings) (now : ℚ) (d : MediaData) (st : MonState) : AddOutcome :=
  if s.TITLE_UPDATES = "OFF" then ⟨st, none, []⟩
  else if d.hasFile then ⟨st, none, []⟩
  else
    let key := mediaKeyOf d
    let regEvs :=
      if lookupKey key st.registry = none then
        (st.registry ++ [(key, newEntry now d)],
         if s.TITLE_UPDATES = "ALL" then
           [Event.plexTitleUpdate d.rating_key d.title "Searching..."]
         else [])
      else (st.registry, ([] : List Event))
    let timer :=
      if s.TITLE_UPDATES = "ALL" ∧ ¬ st.batchTimer then true else st.batchTimer
    ⟨⟨regEvs.1, timer, st.pendingRemovals⟩, none, regEvs.2⟩

/-- Embedding of remove_from_monitor (lines 106-123): delete the key if
present, then stop the batch timer if the registry became empty.  Note
that the pending one-shot removal timers are not touched. -/
def remove_from_monitor (st : MonState) (k : MediaKey) : MonState :=
  let reg := eraseKey k st.registry
  let timer := if reg = [] ∧ st.batchTimer then false else st.batchTimer
  ⟨reg, timer, st.pendingRemovals⟩

/-- Embedding of update_media_status (lines 158-209): no-op if the key is
absent; if the status string changed, log the change, store it with a new
last_update_time, and on "Available" schedule a one-shot removal after
AVAILABLE_CLEANUP_DELAY; independently, whenever a progress value is
provided it is logged and stored, even if unchanged. -/
def update_media_status (s : Settings) (now : ℚ) (st : MonState) (k : MediaKey)
    (status : String) (progress : Option ℚ) : MonState × List Event :=
  match lookupKey k st.registry with
  | none => (st, [])
  | some m =>
    let changed := m.last_status ≠ status
    let m₁ :=
      if changed then { m with last_status := status, last_update_time := now } else m
    let pend :=
      if changed ∧ status = "Available" then
        st.pendingRemovals ++ [(s.AVAILABLE_CLEANUP_DELAY, k)]
      else st.pendingRemovals
    let evs := if changed then [Event.statusChange k m.last_status status] else []
    match progress with
    | none => (⟨setKey k m₁ st.registry, st.batchTimer, pend⟩, evs)
    | some p =>
        (⟨setKey k { m₁ with progress := some p } st.registry, st.batchTimer, pend⟩,
         evs ++ [Event.progressLog k p])

/-- Firing of one scheduled removal timer: the timer body is
remove_from_monitor on the captured key, and the fired timer leaves the
pending list. -/
def firePendingRemoval (st : MonState) (delay : ℚ) (k : MediaKey) : MonState :=
  let st₁ := remove_from_monitor st k
  { st₁ with pendingRemovals := st₁.pendingRemovals.erase (delay, k) }

/-! Episode lookahead selector (src/services/integrations.py lines
461-561).  The fetched episode list is a parameter (the /episode API
response), each element carrying the fields the function reads with
.get (defaults 0 / False as in the source). -/

/-- One element of the Sonarr /episode response as read by
get_episodes_for_lookahead. -/
structure Episode where
  seasonNumber : ℕ := 0
  episodeNumber : ℕ := 0
  hasFile : Bool := false
deriving DecidableEq, Repr

/-- The max_episodes_by_season dictionary: present for a season iff some
episode has that season, with value the maximum episode number there. -/
def seasonMax (eps : List Episode) (s : ℕ) : Option ℕ :=
  let inSeason := eps.filter (fun ep => ep.seasonNumber == s)
  if inSeason.isEmpty then none
  else some (inSeason.foldl (fun a ep => max a ep.episodeNumber) 0)

/-- Largest season number present in the episode list (0 if empty); used
only as a fuel bound for the rollover loop, which leaves a season by
incrementing it, so it can iterate at most once per season up to this. -/
def maxSeason (eps : List Episode) : ℕ :=
  eps.foldl (fun a ep => max a ep.seasonNumber) 0

/-- Fuelled form of the season-rollover while loop: while the current end
season has known episodes and the end episode exceeds that season's
maximum, carry the overflow into the next season starting at episode 1
(new end episode = overflow). -/
def rolloverGo (eps : List Episode) : ℕ → ℕ → ℕ → ℕ × ℕ
  | 0, s, e => (s, e)
  | fuel + 1, s, e =>
    match seasonMax eps s with
    | none => (s, e)
    | some m => if m < e then rolloverGo eps fuel (s + 1) (e - m) else (s, e)

/-- The rollover while loop.  The fuel maxSeason eps + 1 - s is exact:
whenever the loop body runs, the current season has episodes, hence is at
most maxSeason eps, so the fuel is positive, and each iteration
increments the season by one. -/
def rollover (eps : List Episode) (s e : ℕ) : ℕ × ℕ :=
  rolloverGo eps (maxSeason eps + 1 - s) s e

/-- Embedding of get_episodes_for_lookahead (lines 461-561), with the
fetched episode list and the INCLUDE_SPECIALS flag as parameters: filter
out season 0 unless specials are included, find the last known episode,
roll the end of the window current_episode + lookahead over season
boundaries, report whether the window reaches the last known episode, and
return in input order every known episode inside the inclusive window
that has no file. -/
def get_episodes_for_lookahead (all_episodes : List Episode) (include_specials : Bool)
    (current_season current_episode : ℕ) (lookahead : ℕ := 5) : List Episode × Bool :=
  let episodes :=
    if include_specials then all_episodes
    else all_episodes.filter (fun ep => decide (0 < ep.seasonNumber))
  let lastPair :=
    if episodes.isEmpty then ((0 : ℕ), (0 : ℕ))
    else episodes.foldl
      (fun a ep =>
        if a.1 < ep.seasonNumber ∨ (a.1 = ep.seasonNumber ∧ a.2 < ep.episodeNumber) then
          (ep.seasonNumber, ep.episodeNumber)
        else a)
      (0, 0)
  let last_season := lastPair.1
  let last_episode_num := lastPair.2
  let rangeEnd := rollover episodes current_season (current_episode + lookahead)
  let range_end_season := rangeEnd.1
  let range_end_episode := rangeEnd.2
  let reached_end :=
    decide (last_season < range_end_season ∨
      (range_end_season = last_season ∧ last_episode_num ≤ range_end_episode))
  let filtered_episodes := episodes.filter (fun ep =>
    decide ((current_season < ep.seasonNumber ∨
        (ep.seasonNumber = current_season ∧ current_episode ≤ ep.episodeNumber)) ∧
      (ep.seasonNumber < range_end_season ∨
        (ep.seasonNumber = range_end_season ∧ ep.episodeNumber ≤ range_end_episode)) ∧
      ep.hasFile = false))
  (filtered_episodes, reached_end)

/-! Batch poller (src/services/queue_monitor.py, _check_downloads_status
lines 862-1006) and per-item status processing (process_episode_queue_item
lines 499-544), plus extract_download_info of
src/services/progressarr/queue.py lines 57-88. -/

/-- Python truthiness of an integer read with .get: None and 0 are falsy. -/
def pyTruthyInt : Option Int → Bool
  | none => false
  | some n => n != 0

/-- Python str.lower, on the character list underlying the string. -/
def pyStrLower (s : String) : String :=
  String.mk (s.data.map Char.toLower)

/-- Python str.capitalize: first character upper-cased, rest lower-cased. -/
def pyCapitalize (s : String) : String :=
  String.mk ((s.data.take 1).map Char.toUpper ++ (s.data.drop 1).map Char.toLower)

/-- Python int() conversion of a (modelled-exact) float: truncation toward
zero. -/
def pyInt (q : ℚ) : ℤ :=
  if 0 ≤ q then ⌊q⌋ else ⌈q⌉

/-- Round-half-to-even to an integer, the rounding Python round uses. -/
def roundHalfEven (q : ℚ) : ℤ :=
  let f := ⌊q⌋
  let r := q - f
  if r < 1 / 2 then f
  else if 1 / 2 < r then f + 1
  else if Even f then f else f + 1

/-- Python round(x, 1): one decimal digit, half to even. -/
def round1 (q : ℚ) : ℚ :=
  (roundHalfEven (10 * q) : ℚ) / 10

/-- One record of an *arr /queue response, with the fields
_check_downloads_status reads (all through .get). -/
structure QueueRecord where
  episodeId : Option Int := none
  movieId : Option Int := none
  status : Option String := none
  size : Option ℚ := none
  sizeleft : Option ℚ := none
deriving DecidableEq, Repr

/-- Per-id digest the poller stores in its sonarr_queue / radarr_queue
lookup dictionaries. -/
structure QueueInfo where
  status : String
  progress : ℚ
deriving DecidableEq, Repr

/-- The digest computed for one queue record: capitalized status and the
rounded progress percentage, 0 when the size is absent or nonpositive
(the division reads the size with default 1, the guard with default 0). -/
def queueInfoOf (r : QueueRecord) : QueueInfo :=
  { status := pyCapitalize (r.status.getD "Unknown")
    progress :=
      if 0 < r.size.getD 0 then round1 (100 - r.sizeleft.getD 0 / r.size.getD 1 * 100)
      else 0 }

/-- Lookup in the dictionary keyed by str(id) that the poller builds from
the records whose id field is truthy; later records overwrite earlier
ones, so the lookup finds the last truthy record with the id. -/
def queueLookup (records : List QueueRecord) (recId : QueueRecord → Option Int)
    (refId : Int) : Option QueueInfo :=
  (((records.filter (fun r => pyTruthyInt (recId r))).reverse.find?
      (fun r => recId r == some refId)).map queueInfoOf)

/-- Treatment of a single registry entry in one pass of
_check_downloads_status: entries of the other media type are untouched,
an entry with a falsy backend reference is skipped (continue), an entry
absent from the queue lookup is untouched, and for a present entry the
status is stored when it differs and the progress is stored when it moved
by at least 0.5, each change emitting its log line. -/
def pollOne (records : List QueueRecord) (recId : QueueRecord → Option Int)
    (entRef : MediaEntry → Option Int) (tp : MediaType) (kv : MediaKey × MediaEntry) :
    (MediaKey × MediaEntry) × List Event :=
  let m := kv.2
  if m.media_type = tp then
    match entRef m with
    | some refId =>
      if refId = 0 then (kv, [])
      else
        match queueLookup records recId refId with
        | some qi =>
          let current_status := m.last_status
          let current_progress := m.progress.getD 0
          let status_changed := current_status ≠ qi.status
          let progress_changed := (1 / 2 : ℚ) ≤ |current_progress - qi.progress|
          let m₁ := if status_changed then { m with last_status := qi.status } else m
          let m₂ := if progress_changed then { m₁ with progress := some qi.progress } else m₁
          ((kv.1, m₂),
           (if status_changed then [Event.statusChange kv.1 current_status qi.status] else []) ++
             (if progress_changed then [Event.progressLog kv.1 qi.progress] else []))
        | none => (kv, [])
    | none => (kv, [])
  else (kv, [])

/-- One queue-fetch pass of the poller over the whole registry snapshot
for one media type. -/
def pollPass (records : List QueueRecord) (recId : QueueRecord → Option Int)
    (entRef : MediaEntry → Option Int) (tp : MediaType) (reg : Registry) :
    Registry × List Event :=
  (reg.map (fun kv => (pollOne records recId entRef tp kv).1),
   (reg.map (fun kv => (pollOne records recId entRef tp kv).2)).flatten)

/-- Embedding of _check_downloads_status (lines 862-1006): return at once
if the registry is empty; otherwise run the Sonarr pass over the episode
entries and then the Radarr pass over the movie entries, each skipped
entirely when its queue request failed (none).  The function reads no
clock and neither removes entries nor touches start_time, attempts or the
timers. -/
def check_downloads (sonarrResp radarrResp : Option (List QueueRecord))
    (st : MonState) : MonState × List Event :=
  if st.registry.isEmpty then (st, [])
  else
    let sonarrPass :=
      match sonarrResp with
      | none => (st.registry, [])
      | some records =>
        pollPass records QueueRecord.episodeId MediaEntry.episode_id .episode st.registry
    let radarrPass :=
      match radarrResp with
      | none => (sonarrPass.1, [])
      | some records =>
        pollPass records QueueRecord.movieId MediaEntry.radarr_id .movie sonarrPass.1
    (⟨radarrPass.1, st.batchTimer, st.pendingRemovals⟩, sonarrPass.2 ++ radarrPass.2)

/-- A raw size field of a queue item as fed to float(): a number, or a
malformed value on which float() raises (the except path). -/
inductive SizeVal where
  | num (q : ℚ)
  | malformed
deriving DecidableEq, Repr

/-- Python float() on a size field: defined exactly on numbers. -/
def pyFloat : SizeVal → Option ℚ
  | .num q => some q
  | .malformed => none

/-- Queue item fields read by process_episode_queue_item. -/
structure EpisodeQueueItem where
  status : Option String := none
  size : Option SizeVal := none
  sizeleft : Option SizeVal := none
deriving DecidableEq, Repr

/-- Embedding of process_episode_queue_item (lines 499-544): dispatch on
the lower-cased queue status; for a downloading item convert the sizes
with float() (errors caught, giving the bare "Downloading..." status),
and when the total size is positive report the truncated percentage
int(100 - sizeleft / size * 100). -/
def process_episode_queue_item (s : Settings) (now : ℚ) (st : MonState) (k : MediaKey)
    (item : EpisodeQueueItem) : MonState × List Event :=
  let status := pyStrLower (item.status.getD "")
  if status = "completed" then update_media_status s now st k "Processing..." none
  else if status = "downloading" then
    match pyFloat (item.sizeleft.getD (.num 0)), pyFloat (item.size.getD (.num 0)) with
    | some size_remaining, some size_total =>
      if 0 < size_total then
        let percent := pyInt (100 - size_remaining / size_total * 100)
        update_media_status s now st k (s!"Downloading {percent}%") none
      else update_media_status s now st k "Downloading..." none
    | _, _ => update_media_status s now st k "Downloading..." none
  else if status = "delay" ∨ status = "queued" ∨ status = "paused" then
    update_media_status s now st k "Queued" none
  else if status = "warning" then update_media_status s now st k "Warning" none
  else if status = "error" then update_media_status s now st k "Error" none
  else (st, [])

/-- Queue item fields read by extract_download_info
(src/services/progressarr/queue.py lines 57-88). -/
structure ExtractItem where
  status : Option String := none
  size : Option ℚ := none
  sizeleft : Option ℚ := none
  timeLeft : Option String := none
deriving DecidableEq, Repr

/-- Embedding of extract_download_info: status with default, completed
fraction percentage int((size - sizeleft) / size * 100) guarded by
0 < size and sizeleft ≤ size (else 0), and the ETA in minutes parsed from
a HH:MM:SS string when present and truthy (parse failures give none). -/
def extract_download_info (item : ExtractItem) : String × ℤ × Option ℤ :=
  let status := item.status.getD "Unknown"
  let size_total := item.size.getD 0
  let size_remaining := item.sizeleft.getD 0
  let percentage :=
    if 0 < size_total ∧ size_remaining ≤ size_total then
      pyInt ((size_total - size_remaining) / size_total * 100)
    else 0
  let eta_minutes :=
    match item.timeLeft with
    | none => none
    | some etaStr =>
      if etaStr = "" then none
      else
        match etaStr.splitOn ":" with
        | [h, m, sec] =>
          match h.toInt?, m.toInt?, sec.toInt? with
          | some hours, some minutes, some _ => some (hours * 60 + minutes)
          | _, _, _ => none
        | _ => none
  (status, percentage, eta_minutes)

/-! Download webhook handler (handle_download_webhook, lines 1008-1105). -/

/-- Episode element of the webhook payload. -/
structure WebhookEpisode where
  id : Option Int := none
  seasonNumber : Option Int := none
  episodeNumber : Option Int := none
deriving DecidableEq, Repr

/-- Series element of the webhook payload. -/
structure WebhookSeries where
  tvdbId : Option Int := none
deriving DecidableEq, Repr

/-- Movie element of the webhook payload. -/
structure WebhookMovie where
  id : Option Int := none
  tmdbId : Option Int := none
deriving DecidableEq, Repr

/-- The decoded webhook payload: the keys handle_download_webhook tests
with in. -/
structure WebhookData where
  episodes : List WebhookEpisode := []
  series : Option WebhookSeries := none
  movie : Option WebhookMovie := none
deriving DecidableEq, Repr

/-- Matching predicate of the episode branch: same episode_id value
(Python == on possibly-None values), or else same tvdb_id, season and
episode numbers. -/
def episodeWebhookMatch (episodeId tvdbId : Option Int) (sn en : Int)
    (m : MediaEntry) : Bool :=
  m.media_type == .episode &&
    (m.episode_id == episodeId ||
      (m.tvdb_id == tvdbId && m.season_number == some sn && m.episode_number == some en))

/-- Matching predicate of the movie branch as the code executes it: the
first comparison reads media.get with a movie_id key that entries built
by add_to_monitor never contain, so it compares None to the webhook movie
id; otherwise the tmdb_id values are compared (Python == on
possibly-None values). -/
def movieWebhookMatch (movieId tmdbId : Option Int) (m : MediaEntry) : Bool :=
  m.media_type == .movie &&
    ((none : Option Int) == movieId || m.tmdb_id == tmdbId)

/-- Removal loop shared by both branches: for each collected key, if
still present, remove it and count it. -/
def removeCollected (st : MonState) : List MediaKey → MonState × ℕ
  | [] => (st, 0)
  | k :: ks =>
    if containsKey k st.registry then
      let res := removeCollected (remove_from_monitor st k) ks
      (res.1, res.2 + 1)
    else removeCollected st ks

/-- Embedding of handle_download_webhook (lines 1008-1105): on a payload
with a nonempty episodes list, collect and remove the registry entries
matching the first episode (the branch first logs a message formatting
the season and episode numbers with :02d, which raises on None; the
surrounding except then returns False); on a payload with a movie key,
collect and remove the matching movie entries; return whether at least
one item was removed. -/
def handle_download_webhook (st : MonState) (data : WebhookData) : MonState × Bool :=
  match data.episodes with
  | ep :: _ =>
    let series := data.series.getD {}
    match ep.seasonNumber, ep.episodeNumber with
    | some sn, some en =>
      let keys_to_remove :=
        (st.registry.filter
          (fun kv => episodeWebhookMatch ep.id series.tvdbId sn en kv.2)).map Prod.fst
      let res := removeCollected st keys_to_remove
      (res.1, decide (0 < res.2))
    | _, _ => (st, false)
  | [] =>
    match data.movie with
    | some movie =>
      let keys_to_remove :=
        (st.registry.filter (fun kv => movieWebhookMatch movie.id movie.tmdbId kv.2)).map
          Prod.fst
      let res := removeCollected st keys_to_remove
      (res.1, decide (0 < res.2))
    | none => (st, false)

/-! Basic registry lemmas. -/

theorem lookupKey_not_mem {k : MediaKey} {r : Registry}
    (h : lookupKey k r = none) : k ∉ r.map Prod.fst := by
  induction r with
  | nil => simp
  | cons kv rest ih =>
    by_cases hk : kv.1 = k
    · simp [lookupKey, hk] at h
    · simp only [lookupKey, if_neg hk] at h
      simp only [List.map_cons, List.mem_cons]
      rintro (rfl | hmem)
      · exact hk rfl
      · exact ih h hmem

theorem lookupKey_append_self {k : MediaKey} {r : Registry} {e : MediaEntry}
    (h : lookupKey k r = none) : lookupKey k (r ++ [(k, e)]) = some e := by
  induction r with
  | nil => simp [lookupKey]
  | cons kv rest ih =>
    by_cases hk : kv.1 = k
    · simp [lookupKey, hk] at h
    · simp only [lookupKey, if_neg hk] at h ⊢
      exact ih h

theorem setKey_lookup_self {k : MediaKey} {r : Registry} {m : MediaEntry}
    (h : lookupKey k r = some m) : setKey k m r = r := by
  induction r with
  | nil => simp [setKey]
  | cons kv rest ih =>
    by_cases hk : kv.1 = k
    · simp only [lookupKey, if_pos hk] at h
      cases h
      simp [setKey, if_pos hk]
    · simp only [lookupKey, if_neg hk] at h
      simp [setKey, if_neg hk, ih h]

theorem lookupKey_setKey {k : MediaKey} {r : Registry} {e : MediaEntry}
    (h : (lookupKey k r).isSome) : lookupKey k (setKey k e r) = some e := by
  induction r with
  | nil => simp [lookupKey] at h
  | cons kv rest ih =>
    by_cases hk : kv.1 = k
    · simp [setKey, lookupKey, if_pos hk]
    · simp only [lookupKey, if_neg hk] at h
      simp [setKey, lookupKey, if_neg hk, ih h]

/-! Poll-cycle key preservation: one pass of _check_downloads_status maps
each entry in place and never deletes. -/

theorem pollOne_fst (records : List QueueRecord) (recId : QueueRecord → Option Int)
    (entRef : MediaEntry → Option Int) (tp : MediaType) (kv : MediaKey × MediaEntry) :
    (pollOne records recId entRef tp kv).1.1 = kv.1 := by
  unfold pollOne
  dsimp only
  repeat' split
  all_goals rfl

theorem pollPass_map_fst (records : List QueueRecord) (recId : QueueRecord → Option Int)
    (entRef : MediaEntry → Option Int) (tp : MediaType) (reg : Registry) :
    (pollPass records recId entRef tp reg).1.map Prod.fst = reg.map Prod.fst := by
  unfold pollPass
  rw [List.map_map]
  exact List.map_congr_left fun kv _ => pollOne_fst records recId entRef tp kv

theorem check_downloads_map_fst (sonarrResp radarrResp : Option (List QueueRecord))
    (st : MonState) :
    (check_downloads sonarrResp radarrResp st).1.registry.map Prod.fst
      = st.registry.map Prod.fst := by
  unfold check_downloads
  split
  · rfl
  · cases sonarrResp with
    | none =>
      cases radarrResp with
      | none => rfl
      | some rrec => exact pollPass_map_fst ..
    | some srec =>
      cases radarrResp with
      | none => exact pollPass_map_fst ..
      | some rrec => rw [pollPass_map_fst, pollPass_map_fst]

/-! Concrete fixtures used by the claim theorems below. -/

/-- A monitored movie entry whose start_time 0 is far older than the
configured MAX_MONITOR_TIME ceiling at any later poll instant. -/
def staleMovieEntry : MediaEntry :=
  { media_type := .movie
    title := "Old Movie"
    rating_key := 101
    is_4k := false
    status := "searching"
    start_time := 0
    last_update_time := 0
    last_status := "Searching..."
    attempts := 0
    retrying := false
    tmdb_id := some 42
    radarr_id := some 7 }

/-- Registry key of the stale movie entry. -/
def staleKey : MediaKey := .movie (some 7)

/-- Module state holding only the stale movie unit, batch timer running. -/
def staleState : MonState := { registry := [(staleKey, staleMovieEntry)], batchTimer := true }

/-- C1: the spec (and the start_time bookkeeping of the registry entries,
kept "to reset the timeout") requires a unit whose start_time is older
than MAX_MONITOR_TIME to be removed with a terminal Not Found outcome on
the next poll cycle; the batch poll cycle _check_downloads_status reads
neither a clock nor MAX_MONITOR_TIME and removes nothing: with the
default ceiling of 60 and a unit started at time 0, a poll cycle at any
later instant (the embedding takes no clock because the source reads
none) leaves the unit in the registry unchanged and emits no event, and
in general a poll cycle preserves the key of every monitored unit
whatever the queue responses are. -/
theorem C1_stale_unit_survives_poll :
    ({} : Settings).MAX_MONITOR_TIME = 60 ∧
    staleMovieEntry.start_time = 0 ∧
    check_downloads (some []) (some []) staleState = (staleState, []) ∧
    (∀ (sonarrResp radarrResp : Option (List QueueRecord)) (st : MonState),
      (check_downloads sonarrResp radarrResp st).1.registry.map Prod.fst
        = st.registry.map Prod.fst) :=
  ⟨rfl, rfl, by decide, check_downloads_map_fst⟩

/-- A movie media_data payload with no file yet, as the webhook handlers
build it. -/
def c2Movie : MediaData :=
  { media_type := .movie
    title := "Some Movie"
    rating_key := 3
    radarr_id := some 7
    tmdb_id := some 42 }

/-- C2 counterexample: add_to_monitor has no return statement carrying a
value, so the second insertion of the same identity returns None rather
than any report that the unit was not newly added (modelled: the Python
return value is the ret field, and a report of non-insertion would be
some false). -/
theorem C2_counterexample_no_report :
    (add_to_monitor {} 1 c2Movie (add_to_monitor {} 0 c2Movie {}).state).ret
      ≠ some false := by decide

/-- C2 (amended): with title updates enabled and no file present, adding
the same identity twice leaves exactly one registry entry for it, the
second call leaves the registry (hence the existing entry's fields)
unchanged, and the second call returns None, reporting nothing. -/
theorem C2_add_idempotent (s : Settings) (t₁ t₂ : ℚ) (d : MediaData) (st : MonState)
    (hOff : s.TITLE_UPDATES ≠ "OFF") (hFile : d.hasFile = false)
    (hAbsent : lookupKey (mediaKeyOf d) st.registry = none) :
    (add_to_monitor s t₂ d (add_to_monitor s t₁ d st).state).state.registry
        = (add_to_monitor s t₁ d st).state.registry ∧
    lookupKey (mediaKeyOf d) (add_to_monitor s t₁ d st).state.registry
        = some (newEntry t₁ d) ∧
    ((add_to_monitor s t₁ d st).state.registry.map Prod.fst).count (mediaKeyOf d) = 1 ∧
    (add_to_monitor s t₂ d (add_to_monitor s t₁ d st).state).ret = none := by
  have hnf : ¬ (d.hasFile = true) := by simp [hFile]
  have h₁ : (add_to_monitor s t₁ d st).state.registry
      = st.registry ++ [(mediaKeyOf d, newEntry t₁ d)] := by
    unfold add_to_monitor
    rw [if_neg hOff, if_neg hnf]
    simp [hAbsent]
  have h₂ : lookupKey (mediaKeyOf d) (add_to_monitor s t₁ d st).state.registry
      = some (newEntry t₁ d) := by
    rw [h₁]; exact lookupKey_append_self hAbsent
  refine ⟨?_, h₂, ?_, ?_⟩
  · conv_lhs => rw [add_to_monitor]
    rw [if_neg hOff, if_neg hnf]
    simp [h₂]
  · rw [h₁]
    have h0 : mediaKeyOf d ∉ st.registry.map Prod.fst := lookupKey_not_mem hAbsent
    simp [List.count_append, List.count_eq_zero.mpr h0]
  · conv_lhs => rw [add_to_monitor]
    rw [if_neg hOff, if_neg hnf]

/-- C2 witness: the amended statement at the concrete movie payload,
empty initial state and default settings. -/
theorem C2_add_idempotent_witness :
    ({} : Settings).TITLE_UPDATES ≠ "OFF" ∧ c2Movie.hasFile = false ∧
    lookupKey (mediaKeyOf c2Movie) ({} : MonState).registry = none ∧
    ((add_to_monitor {} 1 c2Movie (add_to_monitor {} 0 c2Movie {}).state).state.registry
        = (add_to_monitor {} 0 c2Movie {}).state.registry ∧
      lookupKey (mediaKeyOf c2Movie) (add_to_monitor {} 0 c2Movie {}).state.registry
        = some (newEntry 0 c2Movie) ∧
      ((add_to_monitor {} 0 c2Movie {}).state.registry.map Prod.fst).count (mediaKeyOf c2Movie) = 1 ∧
      (add_to_monitor {} 1 c2Movie (add_to_monitor {} 0 c2Movie {}).state).ret = none) :=
  ⟨by decide, rfl, rfl, C2_add_idempotent {} 0 1 c2Movie {} (by decide) rfl rfl⟩

/-- A media_data payload whose file is already present. -/
def c9Movie : MediaData :=
  { media_type := .movie
    title := "Already Here"
    rating_key := 4
    hasFile := true
    radarr_id := some 8 }

/-- C9: when the item already has a file, or when title updates are OFF,
add_to_monitor returns before touching anything: the module state
(registry, batch timer, pending removals) is returned unchanged, no event
is emitted, and the Python return value is None. -/
theorem C9_add_no_effect (s : Settings) (now : ℚ) (d : MediaData) (st : MonState)
    (h : d.hasFile = true ∨ s.TITLE_UPDATES = "OFF") :
    add_to_monitor s now d st = ⟨st, none, []⟩ := by
  unfold add_to_monitor
  rcases h with h | h
  · by_cases hOff : s.TITLE_UPDATES = "OFF"
    · rw [if_pos hOff]
    · rw [if_neg hOff, if_pos h]
  · rw [if_pos h]

/-- C9 witness: the statement at a concrete payload with a file already
present, under the default settings. -/
theorem C9_add_no_effect_witness :
    (c9Movie.hasFile = true ∨ ({} : Settings).TITLE_UPDATES = "OFF") ∧
    add_to_monitor {} 0 c9Movie {} = ⟨{}, none, []⟩ :=
  ⟨Or.inl rfl, C9_add_no_effect {} 0 c9Movie {} (Or.inl rfl)⟩

theorem eraseKey_not_mem {k : MediaKey} {r : Registry}
    (h : lookupKey k r = none) : eraseKey k r = r := by
  induction r with
  | nil => rfl
  | cons kv rest ih =>
    by_cases hk : kv.1 = k
    · simp [lookupKey, hk] at h
    · simp only [lookupKey, if_neg hk] at h
      simp [eraseKey, if_neg hk, ih h]

/-- Registry key of the monitored episode fixture. -/
def c6Key : MediaKey := .episode (some 11) 1 2

/-- A monitored episode entry mid-download: status string and progress
both already recorded. -/
def c6Entry : MediaEntry :=
  { media_type := .episode
    title := "Pilot"
    rating_key := 5
    is_4k := false
    status := "searching"
    start_time := 0
    last_update_time := 0
    last_status := "Downloading 50%"
    attempts := 0
    retrying := false
    tvdb_id := some 11
    season_number := some 1
    episode_number := some 2
    series_title := "Show"
    episode_id := some 77
    progress := some 50 }

/-- Module state holding the mid-download episode, batch timer running. -/
def c6State : MonState := { registry := [(c6Key, c6Entry)], batchTimer := true }

/-- C6 counterexample: calling update_media_status with the current
status and the current progress is not free of emitted notifications:
the progress block runs whenever a progress value is provided ("Always
log progress updates if provided"), so a progress log event is emitted
even though nothing changed. -/
theorem C6_counterexample_progress_logged :
    (update_media_status {} 7 c6State c6Key "Downloading 50%" (some 50)).2
        = [Event.progressLog c6Key 50] ∧
    (update_media_status {} 7 c6State c6Key "Downloading 50%" (some 50)).2 ≠ [] := by
  decide

/-- C6 (amended): calling update_media_status with the entry's current
status and current progress leaves the whole module state unchanged
(fields untouched, nothing scheduled) and emits no status-change event;
the only emission is the redundant progress log line. -/
theorem C6_noop_keeps_state (s : Settings) (now : ℚ) (st : MonState) (k : MediaKey)
    (m : MediaEntry) (p : ℚ)
    (hm : lookupKey k st.registry = some m) (hp : m.progress = some p) :
    (update_media_status s now st k m.last_status (some p)).1 = st ∧
    (update_media_status s now st k m.last_status (some p)).2 = [Event.progressLog k p] := by
  have hentry : ({ m with progress := some p } : MediaEntry) = m := by rw [← hp]
  constructor
  · simp only [update_media_status, hm]
    simp only [ne_eq, not_true_eq_false, if_false, false_and, ite_false]
    rw [hentry, setKey_lookup_self hm]
  · simp only [update_media_status, hm]
    simp only [ne_eq, not_true_eq_false, if_false, List.nil_append]

/-- C6 witness: the amended statement at the concrete mid-download
episode state. -/
theorem C6_noop_keeps_state_witness :
    lookupKey c6Key c6State.registry = some c6Entry ∧
    c6Entry.progress = some 50 ∧
    ((update_media_status {} 7 c6State c6Key c6Entry.last_status (some 50)).1 = c6State ∧
      (update_media_status {} 7 c6State c6Key c6Entry.last_status (some 50)).2
        = [Event.progressLog c6Key 50]) :=
  ⟨rfl, rfl, C6_noop_keeps_state {} 7 c6State c6Key c6Entry 50 rfl rfl⟩

/-- C7 counterexample: after a transition to Available schedules the
delayed removal, removing the unit earlier through another path
(remove_from_monitor, as the delete webhook does) leaves the scheduled
action pending: nothing cancels it. -/
theorem C7_counterexample_not_cancelled :
    (remove_from_monitor
        (update_media_status {} 9 c6State c6Key "Available" none).1 c6Key).pendingRemovals
      = [(10, c6Key)] ∧
    (remove_from_monitor
        (update_media_status {} 9 c6State c6Key "Available" none).1 c6Key).pendingRemovals
      ≠ [] := by
  decide

/-- C7 (amended): a transition into Available schedules exactly one
delayed removal of the unit after AVAILABLE_CLEANUP_DELAY and does not
remove it immediately (the entry is still present, relabelled
Available); but no path cancels a scheduled removal —
remove_from_monitor always leaves the pending list unchanged — and a
timer that later fires against a key no longer present merely leaves the
registry unchanged (it would remove a re-added entry under the same
identity). -/
theorem C7_available_schedules_delayed_removal (s : Settings) (now : ℚ) (st : MonState)
    (k : MediaKey) (m : MediaEntry)
    (hm : lookupKey k st.registry = some m) (hne : m.last_status ≠ "Available") :
    (update_media_status s now st k "Available" none).1.pendingRemovals
        = st.pendingRemovals ++ [(s.AVAILABLE_CLEANUP_DELAY, k)] ∧
    lookupKey k (update_media_status s now st k "Available" none).1.registry
        = some { m with last_status := "Available", last_update_time := now } ∧
    (∀ (st₂ : MonState) (k₂ : MediaKey),
      (remove_from_monitor st₂ k₂).pendingRemovals = st₂.pendingRemovals) ∧
    (∀ (st₂ : MonState) (delay : ℚ) (k₂ : MediaKey),
      lookupKey k₂ st₂.registry = none →
        (firePendingRemoval st₂ delay k₂).registry = st₂.registry) := by
  refine ⟨?_, ?_, fun st₂ k₂ => rfl, fun st₂ delay k₂ h₂ => ?_⟩
  · simp only [update_media_status, hm]
    simp only [ne_eq, hne, not_false_eq_true, if_true, true_and, ite_true]
  · simp only [update_media_status, hm]
    simp only [ne_eq, hne, not_false_eq_true, if_true]
    exact lookupKey_setKey (by rw [hm]; rfl)
  · show eraseKey k₂ st₂.registry = st₂.registry
    exact eraseKey_not_mem h₂

/-- C7 witness: the amended statement at the concrete mid-download
episode state, with the third and fourth parts instantiated at the same
state. -/
theorem C7_available_schedules_witness :
    lookupKey c6Key c6State.registry = some c6Entry ∧
    c6Entry.last_status ≠ "Available" ∧
    (update_media_status {} 9 c6State c6Key "Available" none).1.pendingRemovals
        = c6State.pendingRemovals ++ [(({} : Settings).AVAILABLE_CLEANUP_DELAY, c6Key)] ∧
    lookupKey c6Key (update_media_status {} 9 c6State c6Key "Available" none).1.registry
        = some { c6Entry with last_status := "Available", last_update_time := 9 } ∧
    (remove_from_monitor c6State c6Key).pendingRemovals = c6State.pendingRemovals ∧
    (firePendingRemoval {} 10 c6Key).registry = ({} : MonState).registry := by
  have h := C7_available_schedules_delayed_removal {} 9 c6State c6Key c6Entry rfl (by decide)
  exact ⟨rfl, by decide, h.1, h.2.1, h.2.2.1 c6State c6Key, h.2.2.2 {} 10 c6Key rfl⟩

/-- Season and episode number pair of an episode, for stating order and
membership properties. -/
def pairOf (ep : Episode) : ℕ × ℕ := (ep.seasonNumber, ep.episodeNumber)

/-- The C3 series: season 1 with 10 known episodes and season 2 with 5,
where the six episodes inside the lookahead window starting at S1E8 carry
the given hasFile flags and the rest have none. -/
def c3Episodes (b₁ b₂ b₃ b₄ b₅ b₆ : Bool) : List Episode :=
  [⟨1, 1, false⟩, ⟨1, 2, false⟩, ⟨1, 3, false⟩, ⟨1, 4, false⟩, ⟨1, 5, false⟩,
   ⟨1, 6, false⟩, ⟨1, 7, false⟩, ⟨1, 8, b₁⟩, ⟨1, 9, b₂⟩, ⟨1, 10, b₃⟩,
   ⟨2, 1, b₄⟩, ⟨2, 2, b₅⟩, ⟨2, 3, b₆⟩, ⟨2, 4, false⟩, ⟨2, 5, false⟩]

/-- C3 counterexample: on the series with season 1 holding 10 known
episodes (none with a file) and season 2 existing, the lookahead of 5
starting at S1E8 does not return the five episodes S1E8-S2E2: the window
end current_episode + lookahead = 13 rolls over to S2E3, giving six
episodes. -/
theorem C3_counterexample_five_episodes :
    ¬ ((get_episodes_for_lookahead (c3Episodes false false false false false false)
          false 1 8 5).1.map pairOf
        = [(1, 8), (1, 9), (1, 10), (2, 1), (2, 2)]) := by decide

/-- C3 (amended): on that series the lookahead of 5 starting at S1E8
returns exactly those of the six episodes S1E8, S1E9, S1E10, S2E1, S2E2,
S2E3 that lack a file: the walk carries the end slot 8 + 5 = 13 past the
season maximum 10 into season 2 ending at episode 3, and both window ends
are inclusive. -/
theorem C3_rollover_six_episodes :
    ∀ b₁ b₂ b₃ b₄ b₅ b₆ : Bool,
      (get_episodes_for_lookahead (c3Episodes b₁ b₂ b₃ b₄ b₅ b₆) false 1 8 5).1.map pairOf
        = (if b₁ then [] else [(1, 8)]) ++ (if b₂ then [] else [(1, 9)]) ++
            (if b₃ then [] else [(1, 10)]) ++ (if b₄ then [] else [(2, 1)]) ++
            (if b₅ then [] else [(2, 2)]) ++ (if b₆ then [] else [(2, 3)]) := by decide

/-- Excluding specials first and then running the selector on the
filtered list is the same as running it directly: the selector's own
specials filter is idempotent. -/
theorem lookahead_specials_filter_eq (eps : List Episode) (cs ce N : ℕ) :
    get_episodes_for_lookahead eps false cs ce N
      = get_episodes_for_lookahead
          (eps.filter fun ep => decide (0 < ep.seasonNumber)) false cs ce N := by
  have hE : ((eps.filter fun ep => decide (0 < ep.seasonNumber)).filter
        fun ep => decide (0 < ep.seasonNumber))
      = eps.filter fun ep => decide (0 < ep.seasonNumber) := by
    rw [List.filter_filter]
    exact List.filter_congr fun a _ => Bool.and_self _
  simp only [get_episodes_for_lookahead, Bool.false_eq_true, if_false, hE]

/-- Evaluation of the selector on an empty effective episode list: the
window never rolls (no season is in the map), the last-episode fallback
is S0E0, and the reached-end test then always holds. -/
theorem lookahead_nil_eval (cs ce N : ℕ) :
    get_episodes_for_lookahead [] false cs ce N = ([], true) := by
  cases cs with
  | zero => simp [get_episodes_for_lookahead, rollover, rolloverGo, maxSeason, seasonMax]
  | succ s =>
    simp [get_episodes_for_lookahead, rollover, rolloverGo, maxSeason, Nat.succ_sub_succ]

/-- C8 (amended): for a series whose known episodes are all specials and
with specials inclusion disabled, the selector returns the empty episode
list with reachedSeriesEnd = true (the empty-after-filter fallback sets
the last known episode to S0E0, which every window end reaches); and in
general specials are excluded from the walk and the last-episode
computation, in that the selector's result is unchanged when season-0
episodes are dropped from its input beforehand. -/
theorem C8_specials_only (eps : List Episode) (cs ce N : ℕ)
    (h : ∀ ep ∈ eps, ep.seasonNumber = 0) :
    get_episodes_for_lookahead eps false cs ce N = ([], true) ∧
    (∀ (eps₂ : List Episode) (cs₂ ce₂ N₂ : ℕ),
      get_episodes_for_lookahead eps₂ false cs₂ ce₂ N₂
        = get_episodes_for_lookahead
            (eps₂.filter fun ep => decide (0 < ep.seasonNumber)) false cs₂ ce₂ N₂) := by
  refine ⟨?_, fun eps₂ cs₂ ce₂ N₂ => lookahead_specials_filter_eq eps₂ cs₂ ce₂ N₂⟩
  have hnil : (eps.filter fun ep => decide (0 < ep.seasonNumber)) = [] := by
    rw [List.filter_eq_nil_iff]
    intro a ha
    simp [h a ha]
  rw [lookahead_specials_filter_eq, hnil, lookahead_nil_eval]

/-- C8 counterexample: a series holding only specials, with specials
inclusion disabled, yields reachedSeriesEnd = true, not the empty result
with reachedSeriesEnd = false the claim states. -/
theorem C8_counterexample_reached_end :
    get_episodes_for_lookahead [⟨0, 1, false⟩, ⟨0, 2, false⟩] false 0 1 5
      ≠ ([], false) := by decide

/-- C8 witness: the amended statement at a concrete specials-only series,
with the second part instantiated at a concrete mixed series. -/
theorem C8_specials_only_witness :
    (∀ ep ∈ [(⟨0, 1, false⟩ : Episode)], ep.seasonNumber = 0) ∧
    get_episodes_for_lookahead [(⟨0, 1, false⟩ : Episode)] false 0 1 5 = ([], true) ∧
    get_episodes_for_lookahead [(⟨0, 1, false⟩ : Episode), ⟨1, 1, false⟩] false 1 1 2
      = get_episodes_for_lookahead
          ([(⟨0, 1, false⟩ : Episode), ⟨1, 1, false⟩].filter
            fun ep => decide (0 < ep.seasonNumber)) false 1 1 2 := by
  have h := C8_specials_only [⟨0, 1, false⟩] 0 1 5 (by decide)
  exact ⟨by decide, h.1, h.2 [⟨0, 1, false⟩, ⟨1, 1, false⟩] 1 1 2⟩

/-- Reduction of process_episode_queue_item on a downloading queue item
to the size computation. -/
theorem process_downloading (s : Settings) (now : ℚ) (st : MonState) (k : MediaKey)
    (sl sz : SizeVal) :
    process_episode_queue_item s now st k
        { status := some "downloading", size := some sz, sizeleft := some sl }
      = match pyFloat sl, pyFloat sz with
        | some size_remaining, some size_total =>
          if 0 < size_total then
            update_media_status s now st k
              (s!"Downloading {pyInt (100 - size_remaining / size_total * 100)}%") none
          else update_media_status s now st k "Downloading..." none
        | _, _ => update_media_status s now st k "Downloading..." none := by
  rfl

/-- C5: for a downloading queue item the poller computes the progress
percentage as the integer truncation of 100 × (sizeTotal − sizeRemaining)
/ sizeTotal (the source form int(100 - sizeleft / size * 100) is the same
rational); when sizeTotal is zero, or either size field is malformed so
that float() raises, no division happens and the status passed on is the
bare "Downloading..." with no percentage; and extract_download_info
computes the same completed-fraction percentage under its guard. -/
theorem C5_download_progress (s : Settings) (now : ℚ) (st : MonState) (k : MediaKey) :
    (∀ size_remaining size_total : ℚ, 0 < size_total →
      process_episode_queue_item s now st k
          { status := some "downloading", size := some (.num size_total),
            sizeleft := some (.num size_remaining) }
        = update_media_status s now st k
            (s!"Downloading {pyInt (100 * (size_total - size_remaining) / size_total)}%")
            none) ∧
    (∀ size_remaining : ℚ,
      process_episode_queue_item s now st k
          { status := some "downloading", size := some (.num 0),
            sizeleft := some (.num size_remaining) }
        = update_media_status s now st k "Downloading..." none) ∧
    (process_episode_queue_item s now st k
        { status := some "downloading", size := some .malformed, sizeleft := some (.num 5) }
      = update_media_status s now st k "Downloading..." none) ∧
    (process_episode_queue_item s now st k
        { status := some "downloading", size := some (.num 10), sizeleft := some .malformed }
      = update_media_status s now st k "Downloading..." none) ∧
    (∀ size_remaining size_total : ℚ, 0 < size_total → size_remaining ≤ size_total →
      (extract_download_info
          { status := some "downloading", size := some size_total,
            sizeleft := some size_remaining }).2.1
        = pyInt (100 * (size_total - size_remaining) / size_total)) := by
  refine ⟨?_, ?_, ?_, ?_, ?_⟩
  · intro r t ht
    have harg : (100 : ℚ) - r / t * 100 = 100 * (t - r) / t := by
      field_simp
      ring
    rw [process_downloading]
    dsimp only [pyFloat]
    rw [if_pos ht, harg]
  · intro r
    rw [process_downloading]
    dsimp only [pyFloat]
    rw [if_neg (by norm_num)]
  · rw [process_downloading]
    rfl
  · rw [process_downloading]
    rfl
  · intro r t ht hr
    have harg : (t - r) / t * 100 = 100 * (t - r) / t := by ring
    show (if 0 < t ∧ r ≤ t then pyInt ((t - r) / t * 100) else 0) = _
    rw [if_pos ⟨ht, hr⟩, harg]

/-- C5 witness: the example of the claim, sizeTotal 1000 and
sizeRemaining 400, yields the Downloading 60% status. -/
theorem C5_download_progress_witness :
    (0 : ℚ) < 1000 ∧
    process_episode_queue_item {} 0 c6State c6Key
        { status := some "downloading", size := some (.num 1000), sizeleft := some (.num 400) }
      = update_media_status {} 0 c6State c6Key "Downloading 60%" none := by
  have h := (C5_download_progress {} 0 c6State c6Key).1 400 1000 (by norm_num)
  have hval : pyInt (100 * ((1000 : ℚ) - 400) / 1000) = 60 := by
    have h60 : (100 * ((1000 : ℚ) - 400) / 1000) = 60 := by norm_num
    rw [h60]
    decide
  have hs : (s!"Downloading {pyInt (100 * ((1000 : ℚ) - 400) / 1000)}%")
      = "Downloading 60%" := by
    rw [hval]
    decide
  rw [hs] at h
  exact ⟨by norm_num, h⟩

/-! Lemmas on the webhook removal loop. -/

theorem removeCollected_cons_notmem (kv : MediaKey × MediaEntry) (keys : List MediaKey) :
    ∀ (r : Registry) (bt bt₂ : Bool) (pr : List (ℚ × MediaKey)), kv.1 ∉ keys →
      (removeCollected ⟨kv :: r, bt, pr⟩ keys).1.registry
          = kv :: (removeCollected ⟨r, bt₂, pr⟩ keys).1.registry ∧
      (removeCollected ⟨kv :: r, bt, pr⟩ keys).2 = (removeCollected ⟨r, bt₂, pr⟩ keys).2 := by
  induction keys with
  | nil => exact fun r bt bt₂ pr _ => ⟨rfl, rfl⟩
  | cons k ks ih =>
    intro r bt bt₂ pr h
    have hk : ¬ kv.1 = k := fun he => h (he ▸ List.mem_cons_self k ks)
    have hks : kv.1 ∉ ks := fun hm => h (List.mem_cons_of_mem k hm)
    have hcont : containsKey k (kv :: r) = containsKey k r := by
      simp [containsKey, lookupKey, if_neg hk]
    simp only [removeCollected, hcont]
    by_cases hc : containsKey k r = true
    · rw [if_pos hc, if_pos hc]
      have her : eraseKey k (kv :: r) = kv :: eraseKey k r := by
        simp [eraseKey, if_neg hk]
      have hrem : remove_from_monitor ⟨kv :: r, bt, pr⟩ k
          = ⟨kv :: eraseKey k r, bt, pr⟩ := by
        simp [remove_from_monitor, her]
      rw [hrem]
      have hrem₂ : remove_from_monitor ⟨r, bt₂, pr⟩ k
          = ⟨eraseKey k r,
             if eraseKey k r = [] ∧ bt₂ then false else bt₂, pr⟩ := rfl
      rw [hrem₂]
      exact ⟨(ih (eraseKey k r) bt _ pr hks).1, by
        rw [(ih (eraseKey k r) bt _ pr hks).2]⟩
    · rw [if_neg hc, if_neg hc]
      exact ih r bt bt₂ pr hks

theorem removeCollected_filter (p : MediaKey × MediaEntry → Bool) :
    ∀ (r : Registry) (bt : Bool) (pr : List (ℚ × MediaKey)),
      (r.map Prod.fst).Nodup →
      (removeCollected ⟨r, bt, pr⟩ ((r.filter p).map Prod.fst)).1.registry
          = r.filter (fun kv => !p kv) ∧
      (removeCollected ⟨r, bt, pr⟩ ((r.filter p).map Prod.fst)).2
          = (r.filter p).length := by
  intro r
  induction r with
  | nil => exact fun bt pr _ => ⟨rfl, rfl⟩
  | cons kv rest ih =>
    intro bt pr h
    have hd : kv.1 ∉ rest.map Prod.fst := (List.nodup_cons.mp h).1
    have htl : (rest.map Prod.fst).Nodup := (List.nodup_cons.mp h).2
    by_cases hp : p kv = true
    · rw [List.filter_cons_of_pos hp, List.map_cons]
      simp only [removeCollected]
      have hcont : containsKey kv.1 (kv :: rest) = true := by
        simp [containsKey, lookupKey]
      rw [if_pos hcont]
      have her : eraseKey kv.1 (kv :: rest) = rest := by simp [eraseKey]
      have hrem : remove_from_monitor ⟨kv :: rest, bt, pr⟩ kv.1
          = ⟨rest, if rest = [] ∧ bt then false else bt, pr⟩ := by
        simp [remove_from_monitor, her]
      rw [hrem]
      have hih := ih (if rest = [] ∧ bt then false else bt) pr htl
      refine ⟨?_, ?_⟩
      · rw [hih.1, List.filter_cons_of_neg (by simp [hp])]
      · rw [hih.2, List.length_cons]
    · have hp₂ : p kv = false := by simp [hp]
      rw [List.filter_cons_of_neg (by simp [hp₂])]
      have hnot : kv.1 ∉ (rest.filter p).map Prod.fst := by
        intro hm
        obtain ⟨x, hx, hfst⟩ := List.mem_map.mp hm
        exact hd (hfst ▸ List.mem_map_of_mem Prod.fst (List.mem_of_mem_filter hx))
      have hcons := removeCollected_cons_notmem kv ((rest.filter p).map Prod.fst)
        rest bt bt pr hnot
      have hih := ih bt pr htl
      refine ⟨?_, ?_⟩
      · rw [hcons.1, hih.1, List.filter_cons_of_pos (by simp [hp₂])]
      · rw [hcons.2, hih.2]

/-- Matching rule the webhook handler effectively applies: mirrors the
branch structure of handle_download_webhook entry by entry. -/
def webhookMatches (data : WebhookData) (m : MediaEntry) : Bool :=
  match data.episodes with
  | ep :: _ =>
    match ep.seasonNumber, ep.episodeNumber with
    | some sn, some en => episodeWebhookMatch ep.id (data.series.getD {}).tvdbId sn en m
    | _, _ => false
  | [] =>
    match data.movie with
    | some movie => movieWebhookMatch movie.id movie.tmdbId m
    | none => false

/-- Matching rule the claim asserts for movie entries, stated from the
claim's words for comparison with the code's movieWebhookMatch: a
monitored movie matches when its backend movie id (the stored radarr_id)
equals the webhook movie id, or its TMDB id equals the webhook tmdbId. -/
def claimedMovieMatch (movieId tmdbId : Option Int) (m : MediaEntry) : Bool :=
  m.media_type == .movie && (m.radarr_id == movieId || m.tmdb_id == tmdbId)

/-- Count of elements of a list satisfying a Bool predicate is positive
iff some member satisfies it. -/
theorem filter_length_pos_iff {α : Type _} (l : List α) (p : α → Bool) :
    0 < (l.filter p).length ↔ ∃ a ∈ l, p a = true := by
  rw [List.length_pos, Ne, List.filter_eq_nil_iff]
  push_neg
  simp

/-- A Radarr download webhook for the movie with backend id 7 and TMDB id
99. -/
def c10Data : WebhookData := { movie := some { id := some 7, tmdbId := some 99 } }

/-- C10 counterexample: the registry holds a movie entry with radarr_id 7
(backend movie id) and tmdb_id 42; the webhook carries movie id 7 and
tmdbId 99.  Under the claim's matching rule the entry matches by backend
movie id and would be removed (so the claim forces the call to return
true); the code compares the webhook movie id against a movie_id key the
entries never contain, finds nothing, removes nothing, and returns
false. -/
theorem C10_counterexample_movie_id :
    ¬ (((handle_download_webhook staleState c10Data).2 = true) ↔
        ∃ kv ∈ staleState.registry, claimedMovieMatch (some 7) (some 99) kv.2 = true) := by
  decide

/-- C10 (amended): for every webhook payload, handle_download_webhook
returns true iff at least one registry entry matches — episode entries by
backend episode id (Python ==, so two absent ids also match) or by series
tvdb id plus season and episode numbers; movie entries only by TMDB id or
when the webhook movie id is itself absent, because the backend-movie-id
comparison reads a movie_id key that monitored entries never contain —
and the matched entries are exactly the ones removed.  A payload whose
first episode lacks a season or episode number makes the handler raise
internally while logging; the surrounding except returns false with
nothing removed, and no exception propagates. -/
theorem C10_webhook_removal (st : MonState) (data : WebhookData)
    (h : (st.registry.map Prod.fst).Nodup) :
    ((handle_download_webhook st data).2 = true ↔
      ∃ kv ∈ st.registry, webhookMatches data kv.2 = true) ∧
    (handle_download_webhook st data).1.registry
      = st.registry.filter (fun kv => !webhookMatches data kv.2) := by
  rcases data with ⟨eps, series, movie⟩
  cases eps with
  | cons ep rest =>
    rcases ep with ⟨epid, sn, en⟩
    cases sn with
    | none =>
      simp only [handle_download_webhook, webhookMatches]
      constructor
      · simp
      · simp
    | some sn =>
      cases en with
      | none =>
        simp only [handle_download_webhook, webhookMatches]
        constructor
        · simp
        · simp
      | some en =>
        have hfil := removeCollected_filter
          (fun kv => episodeWebhookMatch epid
            (WebhookSeries.tvdbId (Option.getD series {})) sn en kv.2)
          st.registry st.batchTimer st.pendingRemovals h
        simp only [handle_download_webhook, webhookMatches]
        refine ⟨?_, hfil.1⟩
        rw [hfil.2]
        simp only [decide_eq_true_eq]
        exact filter_length_pos_iff st.registry _
  | nil =>
    cases movie with
    | none =>
      simp only [handle_download_webhook, webhookMatches]
      constructor
      · simp
      · simp
    | some movie =>
      have hfil := removeCollected_filter
        (fun kv => movieWebhookMatch movie.id movie.tmdbId kv.2)
        st.registry st.batchTimer st.pendingRemovals h
      simp only [handle_download_webhook, webhookMatches]
      refine ⟨?_, hfil.1⟩
      rw [hfil.2]
      simp only [decide_eq_true_eq]
      exact filter_length_pos_iff st.registry _

/-- A Sonarr download webhook matching the monitored episode fixture by
backend episode id. -/
def c10EpData : WebhookData :=
  { episodes := [{ id := some 77, seasonNumber := some 1, episodeNumber := some 2 }]
    series := some { tvdbId := some 11 } }

/-- C10 witness: the amended statement at the concrete one-episode
registry and a webhook matching it by backend episode id. -/
theorem C10_webhook_removal_witness :
    (c6State.registry.map Prod.fst).Nodup ∧
    (((handle_download_webhook c6State c10EpData).2 = true ↔
        ∃ kv ∈ c6State.registry, webhookMatches c10EpData kv.2 = true) ∧
      (handle_download_webhook c6State c10EpData).1.registry
        = c6State.registry.filter (fun kv => !webhookMatches c10EpData kv.2)) :=
  ⟨by decide, C10_webhook_removal c6State c10EpData (by decide)⟩

/-! Machinery for the lookahead window bounds (C4): strict lexicographic
order on (season, episode) pairs, and counting the known episodes inside
a rolled-over window. -/

/-- Strict lexicographic order on (season, episode) pairs. -/
abbrev lexLt (a b : ℕ × ℕ) : Prop :=
  a.1 < b.1 ∨ (a.1 = b.1 ∧ a.2 < b.2)

/-- Window lower bound: at or after episode a of season s. -/
abbrev geStart (s a : ℕ) (ep : Episode) : Prop :=
  s < ep.seasonNumber ∨ (ep.seasonNumber = s ∧ a ≤ ep.episodeNumber)

/-- Window upper bound: at or before the episode pair q. -/
abbrev leEnd (q : ℕ × ℕ) (ep : Episode) : Prop :=
  ep.seasonNumber < q.1 ∨ (ep.seasonNumber = q.1 ∧ ep.episodeNumber ≤ q.2)

/-- The episode list the selector actually walks: the input with season 0
filtered out unless specials are included. -/
def effectiveEpisodes (eps : List Episode) (include_specials : Bool) : List Episode :=
  if include_specials then eps
  else eps.filter fun ep => decide (0 < ep.seasonNumber)

/-- The selector's episode output is the filter of the effective episode
list to the inclusive window from the played episode to the rolled-over
end, dropping episodes with files. -/
theorem lookahead_fst_eq (eps : List Episode) (inc : Bool) (cs ce N : ℕ) :
    (get_episodes_for_lookahead eps inc cs ce N).1
      = (effectiveEpisodes eps inc).filter (fun ep => decide
          (geStart cs ce ep ∧
            leEnd (rollover (effectiveEpisodes eps inc) cs (ce + N)) ep ∧
            ep.hasFile = false)) := rfl

theorem base_le_foldl_max (f : Episode → ℕ) (l : List Episode) :
    ∀ acc : ℕ, acc ≤ l.foldl (fun a ep => max a (f ep)) acc := by
  induction l with
  | nil => exact fun acc => le_refl acc
  | cons hd tl ih =>
    exact fun acc => le_trans (le_max_left acc (f hd)) (ih (max acc (f hd)))

theorem le_foldl_max (f : Episode → ℕ) (l : List Episode) :
    ∀ (acc : ℕ) (x), x ∈ l → f x ≤ l.foldl (fun a ep => max a (f ep)) acc := by
  induction l with
  | nil => intro acc x hx; cases hx
  | cons hd tl ih =>
    intro acc x hx
    rcases List.mem_cons.mp hx with rfl | hx
    · exact le_trans (le_max_right acc (f x)) (base_le_foldl_max f tl (max acc (f x)))
    · exact ih (max acc (f hd)) x hx

theorem mem_season_le_maxSeason {es : List Episode} {ep : Episode} (h : ep ∈ es) :
    ep.seasonNumber ≤ maxSeason es :=
  le_foldl_max Episode.seasonNumber es 0 ep h

theorem seasonMax_le {es : List Episode} {s m : ℕ} (hsm : seasonMax es s = some m) :
    ∀ ep ∈ es, ep.seasonNumber = s → ep.episodeNumber ≤ m := by
  intro ep hep hs
  unfold seasonMax at hsm
  by_cases hempty : (es.filter fun ep => ep.seasonNumber == s).isEmpty
  · rw [if_pos hempty] at hsm
    cases hsm
  · rw [if_neg hempty] at hsm
    have hm := Option.some.inj hsm
    have hmem : ep ∈ es.filter fun ep => ep.seasonNumber == s :=
      List.mem_filter.mpr ⟨hep, by simp [hs]⟩
    exact hm ▸ le_foldl_max Episode.episodeNumber _ 0 ep hmem

theorem seasonMax_none {es : List Episode} {s : ℕ} (hsm : seasonMax es s = none) :
    ∀ ep ∈ es, ep.seasonNumber ≠ s := by
  intro ep hep hs
  unfold seasonMax at hsm
  by_cases hempty : (es.filter fun ep => ep.seasonNumber == s).isEmpty
  · have hmem : ep ∈ es.filter fun ep => ep.seasonNumber == s :=
      List.mem_filter.mpr ⟨hep, by simp [hs]⟩
    rw [List.isEmpty_iff] at hempty
    rw [hempty] at hmem
    cases hmem
  · rw [if_neg hempty] at hsm
    cases hsm

theorem seasonMax_some_le_maxSeason {es : List Episode} {s m : ℕ}
    (hsm : seasonMax es s = some m) : s ≤ maxSeason es := by
  unfold seasonMax at hsm
  by_cases hempty : (es.filter fun ep => ep.seasonNumber == s).isEmpty
  · rw [if_pos hempty] at hsm
    cases hsm
  · rw [List.isEmpty_iff] at hempty
    obtain ⟨ep, hmem⟩ := List.exists_mem_of_ne_nil _ hempty
    have hs : ep.seasonNumber = s := by
      have := (List.mem_filter.mp hmem).2
      simpa using this
    exact hs ▸ mem_season_le_maxSeason (List.mem_of_mem_filter hmem)

theorem rolloverGo_fst_ge (es : List Episode) :
    ∀ (fuel s e : ℕ), s ≤ (rolloverGo es fuel s e).1 := by
  intro fuel
  induction fuel with
  | zero => exact fun s e => le_refl s
  | succ fuel ih =>
    intro s e
    simp only [rolloverGo]
    cases hsm : seasonMax es s with
    | none => exact le_refl s
    | some m =>
      dsimp only
      by_cases he : m < e
      · rw [if_pos he]
        exact le_trans (Nat.le_succ s) (ih (s + 1) (e - m))
      · rw [if_neg he]

theorem length_le_of_pairwise_lt_mem_Icc (xs : List ℕ) (hs : xs.Pairwise (· < ·))
    (a e : ℕ) (hmem : ∀ x ∈ xs, a ≤ x ∧ x ≤ e) : xs.length ≤ e + 1 - a := by
  have hnd : xs.Nodup := hs.imp fun h => Nat.ne_of_lt h
  calc xs.length = xs.toFinset.card := (List.toFinset_card_of_nodup hnd).symm
    _ ≤ (Finset.Icc a e).card := by
        refine Finset.card_le_card fun x hx => ?_
        rw [List.mem_toFinset] at hx
        exact Finset.mem_Icc.mpr (hmem x hx)
    _ = e + 1 - a := Nat.card_Icc a e

theorem filter_window_length_le (es : List Episode)
    (hsort : es.Pairwise fun x y => lexLt (pairOf x) (pairOf y))
    (p : Episode → Bool) (s lo hi : ℕ)
    (hp : ∀ ep ∈ es, p ep = true →
      ep.seasonNumber = s ∧ lo ≤ ep.episodeNumber ∧ ep.episodeNumber ≤ hi) :
    (es.filter p).length ≤ hi + 1 - lo := by
  have hf : (es.filter p).Pairwise fun x y => lexLt (pairOf x) (pairOf y) :=
    hsort.sublist (List.filter_sublist es)
  have hmem : ∀ ep ∈ es.filter p,
      ep.seasonNumber = s ∧ lo ≤ ep.episodeNumber ∧ ep.episodeNumber ≤ hi :=
    fun ep hep => hp ep (List.mem_of_mem_filter hep) (List.of_mem_filter hep)
  have hchain : ((es.filter p).map Episode.episodeNumber).Pairwise (· < ·) := by
    rw [List.pairwise_map]
    refine hf.imp_of_mem ?_
    intro a b ha hb hlex
    have hsa := (hmem a ha).1
    have hsb := (hmem b hb).1
    have hlex₂ : a.seasonNumber < b.seasonNumber ∨
        (a.seasonNumber = b.seasonNumber ∧ a.episodeNumber < b.episodeNumber) := hlex
    rcases hlex₂ with h | ⟨_, h⟩
    · rw [hsa, hsb] at h
      exact absurd h (lt_irrefl s)
    · exact h
  have hmem₂ : ∀ x ∈ (es.filter p).map Episode.episodeNumber, lo ≤ x ∧ x ≤ hi := by
    intro x hx
    obtain ⟨ep, hep, rfl⟩ := List.mem_map.mp hx
    exact ⟨(hmem ep hep).2.1, (hmem ep hep).2.2⟩
  have hlen := length_le_of_pairwise_lt_mem_Icc _ hchain lo hi hmem₂
  simpa using hlen

theorem filter_length_or_split {α : Type _} (l : List α) (p q r : α → Bool)
    (h : ∀ x ∈ l, p x = (q x || r x)) (hdis : ∀ x ∈ l, ¬(q x = true ∧ r x = true)) :
    (l.filter p).length = (l.filter q).length + (l.filter r).length := by
  induction l with
  | nil => rfl
  | cons hd tl ih =>
    have hhd := h hd (List.mem_cons_self hd tl)
    have hdhd := hdis hd (List.mem_cons_self hd tl)
    have ihtl := ih (fun x hx => h x (List.mem_cons_of_mem hd hx))
      (fun x hx => hdis x (List.mem_cons_of_mem hd hx))
    simp only [List.filter_cons]
    cases hq : q hd with
    | true =>
      have hr : r hd = false := by
        cases hr : r hd with
        | true => exact absurd ⟨hq, hr⟩ hdhd
        | false => rfl
      rw [hhd, hq, hr] at *
      simp only [Bool.true_or, if_true, Bool.false_eq_true, if_false, List.length_cons]
      omega
    | false =>
      cases hr : r hd with
      | true =>
        rw [hhd, hq, hr]
        simp only [Bool.false_or, if_true, Bool.false_eq_true, if_false, List.length_cons]
        omega
      | false =>
        rw [hhd, hq, hr]
        simp only [Bool.false_or, Bool.false_eq_true, if_false]
        omega

theorem decide_eq_or_decide (p q r : Prop) [Decidable p] [Decidable q] [Decidable r]
    (h : p ↔ q ∨ r) : decide p = (decide q || decide r) := by
  have h₂ : decide p = @decide (q ∨ r) instDecidableOr := decide_eq_decide.mpr h
  rw [h₂]
  by_cases hq : q <;> by_cases hr : r <;> simp [hq, hr]

/-- Core counting bound: a strictly (season, episode)-sorted episode list
with episode numbers at least 1 has at most e + 1 - a known episodes in
the inclusive window from (s, a) to the rolled-over end of (s, e),
provided a is at most one past the season maximum of s. -/
theorem rollover_window_count (es : List Episode)
    (hsort : es.Pairwise fun x y => lexLt (pairOf x) (pairOf y))
    (hpos : ∀ ep ∈ es, 1 ≤ ep.episodeNumber) :
    ∀ (fuel s a e : ℕ),
      maxSeason es + 1 ≤ fuel + s →
      (∀ m, seasonMax es s = some m → a ≤ m + 1) →
      (es.filter fun ep =>
        decide (geStart s a ep ∧ leEnd (rolloverGo es fuel s e) ep)).length
        ≤ e + 1 - a := by
  intro fuel
  induction fuel with
  | zero =>
    intro s a e hfuel _
    have hfil : (es.filter fun ep =>
        decide (geStart s a ep ∧ leEnd (rolloverGo es 0 s e) ep)) = [] := by
      rw [List.filter_eq_nil_iff]
      intro ep hep
      simp only [decide_eq_true_eq]
      rintro ⟨hge, hle⟩
      have hge₂ : s < ep.seasonNumber ∨ (ep.seasonNumber = s ∧ a ≤ ep.episodeNumber) := hge
      have hle₂ : ep.seasonNumber < s ∨ (ep.seasonNumber = s ∧ ep.episodeNumber ≤ e) := hle
      have hmax := mem_season_le_maxSeason hep
      rcases hge₂ with h | ⟨h, _⟩ <;> rcases hle₂ with h₂ | ⟨h₂, _⟩ <;> omega
    rw [hfil]
    exact Nat.zero_le _
  | succ fuel ih =>
    intro s a e hfuel ha
    cases hsm : seasonMax es s with
    | none =>
      have hfil : (es.filter fun ep =>
          decide (geStart s a ep ∧ leEnd (rolloverGo es (fuel + 1) s e) ep)) = [] := by
        rw [List.filter_eq_nil_iff]
        intro ep hep
        simp only [decide_eq_true_eq]
        rintro ⟨hge, hle⟩
        have hred : rolloverGo es (fuel + 1) s e = (s, e) := by
          simp [rolloverGo, hsm]
        rw [hred] at hle
        have hge₂ : s < ep.seasonNumber ∨ (ep.seasonNumber = s ∧ a ≤ ep.episodeNumber) := hge
        have hle₂ : ep.seasonNumber < s ∨ (ep.seasonNumber = s ∧ ep.episodeNumber ≤ e) := hle
        have hne := seasonMax_none hsm ep hep
        rcases hge₂ with h | ⟨h, _⟩ <;> rcases hle₂ with h₂ | ⟨h₂, _⟩ <;> omega
      rw [hfil]
      exact Nat.zero_le _
    | some m =>
      have hred : rolloverGo es (fuel + 1) s e
          = if m < e then rolloverGo es fuel (s + 1) (e - m) else (s, e) := by
        simp [rolloverGo, hsm]
      have ham : a ≤ m + 1 := ha m hsm
      by_cases he : m < e
      · simp only [hred, if_pos he]
        have hfin : s + 1 ≤ (rolloverGo es fuel (s + 1) (e - m)).1 :=
          rolloverGo_fst_ge es fuel (s + 1) (e - m)
        have hsplit := filter_length_or_split es
          (fun ep => decide (geStart s a ep ∧ leEnd (rolloverGo es fuel (s + 1) (e - m)) ep))
          (fun ep => decide (ep.seasonNumber = s ∧ a ≤ ep.episodeNumber))
          (fun ep => decide (geStart (s + 1) 1 ep ∧ leEnd (rolloverGo es fuel (s + 1) (e - m)) ep))
          (fun ep hep => by
            refine decide_eq_or_decide _ _ _ ?_
            constructor
            · rintro ⟨hge, hle⟩
              have hge₂ : s < ep.seasonNumber ∨
                  (ep.seasonNumber = s ∧ a ≤ ep.episodeNumber) := hge
              rcases hge₂ with h | ⟨h, h₂⟩
              · refine Or.inr ⟨?_, hle⟩
                by_cases h₁ : ep.seasonNumber = s + 1
                · exact Or.inr ⟨h₁, hpos ep hep⟩
                · exact Or.inl (by omega)
              · exact Or.inl ⟨h, h₂⟩
            · rintro (⟨h, h₂⟩ | ⟨hge, hle⟩)
              · have hle₂ : ep.seasonNumber < (rolloverGo es fuel (s + 1) (e - m)).1 ∨
                    (ep.seasonNumber = (rolloverGo es fuel (s + 1) (e - m)).1 ∧
                      ep.episodeNumber ≤ (rolloverGo es fuel (s + 1) (e - m)).2) :=
                  Or.inl (by omega)
                exact ⟨Or.inr ⟨h, h₂⟩, hle₂⟩
              · have hge₂ : s + 1 < ep.seasonNumber ∨
                    (ep.seasonNumber = s + 1 ∧ 1 ≤ ep.episodeNumber) := hge
                refine ⟨Or.inl ?_, hle⟩
                rcases hge₂ with h | ⟨h, _⟩ <;> omega)
          (fun ep _ => by
            simp only [decide_eq_true_eq]
            rintro ⟨⟨h, _⟩, ⟨hge, _⟩⟩
            have hge₂ : s + 1 < ep.seasonNumber ∨
                (ep.seasonNumber = s + 1 ∧ 1 ≤ ep.episodeNumber) := hge
            rcases hge₂ with h₂ | ⟨h₂, _⟩ <;> omega)
        rw [hsplit]
        have hA : (es.filter fun ep =>
            decide (ep.seasonNumber = s ∧ a ≤ ep.episodeNumber)).length ≤ m + 1 - a := by
          refine filter_window_length_le es hsort _ s a m fun ep hep hp => ?_
          simp only [decide_eq_true_eq] at hp
          exact ⟨hp.1, hp.2, seasonMax_le hsm ep hep hp.1⟩
        have hB := ih (s + 1) 1 (e - m) (by omega) (fun m' _ => by omega)
        omega
      · simp only [hred, if_neg he]
        refine filter_window_length_le es hsort _ s a e fun ep hep hp => ?_
        simp only [decide_eq_true_eq] at hp
        obtain ⟨hge, hle⟩ := hp
        have hge₂ : s < ep.seasonNumber ∨
            (ep.seasonNumber = s ∧ a ≤ ep.episodeNumber) := hge
        have hle₂ : ep.seasonNumber < s ∨
            (ep.seasonNumber = s ∧ ep.episodeNumber ≤ e) := hle
        rcases hge₂ with h | ⟨h, h₂⟩ <;> rcases hle₂ with h₃ | ⟨h₃, h₄⟩ <;> omega

theorem filter_length_mono_of_imp {α : Type _} (l : List α) (p q : α → Bool)
    (h : ∀ x ∈ l, p x = true → q x = true) :
    (l.filter p).length ≤ (l.filter q).length := by
  induction l with
  | nil => exact le_refl 0
  | cons hd tl ih =>
    have iht := ih fun x hx => h x (List.mem_cons_of_mem hd hx)
    have hh := h hd (List.mem_cons_self hd tl)
    simp only [List.filter_cons]
    cases hp : p hd with
    | true =>
      rw [hh hp]
      simpa using iht
    | false =>
      cases hq : q hd with
      | true =>
        simp only [Bool.false_eq_true, if_false, if_true, List.length_cons]
        omega
      | false =>
        simpa using iht

/-- C4 counterexample: the selector does not sort; handing it the
two-episode series in the order S1E2, S1E1 with the window covering both
returns them in input order, which is not strictly ordered by
(season, episode). -/
theorem C4_counterexample_unsorted :
    ¬ ((get_episodes_for_lookahead [⟨1, 2, false⟩, ⟨1, 1, false⟩] false 1 1 1).1.map
        pairOf).Pairwise lexLt := by decide

/-- C4 (amended): when the episode list the selector walks (its input
after the specials filter) is strictly sorted by (season, episode), all
episode numbers are at least 1, and the played episode number does not
exceed its season's maximum known episode number, then for any lookahead
N the selector returns between 0 and N + 1 episodes, strictly ordered by
(season, episode), none of which has a file.  Without the sortedness
hypothesis the order (and with duplicate or zero episode numbers the
count bound) can fail, as the counterexample shows. -/
theorem C4_lookahead_bounds (eps : List Episode) (inc : Bool) (cs ce N : ℕ)
    (hsort : ((effectiveEpisodes eps inc).map pairOf).Pairwise lexLt)
    (hpos : ∀ ep ∈ effectiveEpisodes eps inc, 1 ≤ ep.episodeNumber)
    (hcur : ∀ m, seasonMax (effectiveEpisodes eps inc) cs = some m → ce ≤ m) :
    (get_episodes_for_lookahead eps inc cs ce N).1.length ≤ N + 1 ∧
    ((get_episodes_for_lookahead eps inc cs ce N).1.map pairOf).Pairwise lexLt ∧
    (∀ ep ∈ (get_episodes_for_lookahead eps inc cs ce N).1, ep.hasFile = false) := by
  have hsort₂ : (effectiveEpisodes eps inc).Pairwise
      (fun x y => lexLt (pairOf x) (pairOf y)) := List.pairwise_map.mp hsort
  refine ⟨?_, ?_, ?_⟩
  · rw [lookahead_fst_eq]
    have hrc := rollover_window_count (effectiveEpisodes eps inc) hsort₂ hpos
      (maxSeason (effectiveEpisodes eps inc) + 1 - cs) cs ce (ce + N) (by omega)
      (fun m hm => Nat.le_succ_of_le (hcur m hm))
    refine le_trans (le_trans (filter_length_mono_of_imp _ _ _ ?_) hrc) (by omega)
    intro x hx hpx
    simp only [decide_eq_true_eq] at hpx ⊢
    exact ⟨hpx.1, hpx.2.1⟩
  · rw [lookahead_fst_eq]
    exact hsort.sublist ((List.filter_sublist _).map pairOf)
  · rw [lookahead_fst_eq]
    intro ep hep
    have hmem := List.of_mem_filter hep
    simp only [decide_eq_true_eq] at hmem
    exact hmem.2.2

/-- A concrete sorted single-season series for the C4 witness: three
known episodes, the last already on disk. -/
def c4Episodes : List Episode := [⟨1, 1, false⟩, ⟨1, 2, false⟩, ⟨1, 3, true⟩]

/-- C4 witness: the amended statement at the concrete sorted series,
played episode S1E2, lookahead 1. -/
theorem C4_lookahead_bounds_witness :
    ((effectiveEpisodes c4Episodes false).map pairOf).Pairwise lexLt ∧
    (∀ ep ∈ effectiveEpisodes c4Episodes false, 1 ≤ ep.episodeNumber) ∧
    (∀ m, seasonMax (effectiveEpisodes c4Episodes false) 1 = some m → 2 ≤ m) ∧
    ((get_episodes_for_lookahead c4Episodes false 1 2 1).1.length ≤ 1 + 1 ∧
      ((get_episodes_for_lookahead c4Episodes false 1 2 1).1.map pairOf).Pairwise lexLt ∧
      (∀ ep ∈ (get_episodes_for_lookahead c4Episodes false 1 2 1).1, ep.hasFile = false)) := by
  have hcur : ∀ m, seasonMax (effectiveEpisodes c4Episodes false) 1 = some m → 2 ≤ m := by
    intro m hm
    have h₃ : seasonMax (effectiveEpisodes c4Episodes false) 1 = some 3 := by decide
    rw [h₃] at hm
    cases hm
    decide
  exact ⟨by decide, by decide, hcur,
    C4_lookahead_bounds c4Episodes false 1 2 1 (by decide) (by decide) hcur⟩

end Placeholdarr
